import Mathlib

/-!
Verification of the miles-per-incident (MPI) core of the Tesla robotaxi
incident tracker (scripts/analyze_tesla_incidents.py), shallowly embedded
in Lean 4.

Calendar dates are modelled as natural numbers (days since an epoch); the
Python code only ever uses day-precision datetimes and `.days` differences,
so date arithmetic is exact integer arithmetic.  Python `float` arithmetic
in the single interpolation formula is modelled by exact rationals, and
Python `int(...)` by truncation toward zero.  The scipy optimizer invoked
by `exponential_trend` is external to the repository; it is modelled as an
oracle argument: `Except.error e` models the optimizer raising exception
text `e`, and `Except.ok (a, b, yPred)` models it returning parameters
`a`, `b` with predicted values `yPred` (the transcendental `a * exp (b*t)`
evaluations are abstracted as the returned prediction list).
-/

namespace MPITracker

/-- One fleet snapshot: a (date, vehicle count) observation, the non-null
pairs kept by `FleetInterpolator.__init__`. -/
structure Snapshot where
  date : Nat
  count : Int
  deriving DecidableEq, Repr

/-- The `FleetInterpolator` state after construction: its list of
(date, count) pairs.  Construction sorts them ascending by date; theorems
that need sortedness take it as a hypothesis. -/
structure FleetInterpolator where
  snapshots : List Snapshot
  deriving DecidableEq, Repr

/-- Python `int(q)` on a real value: truncation toward zero. -/
def truncQ (q : Rat) : Int := if q < 0 then ⌈q⌉ else ⌊q⌋

/-- The `before` variable at the end of the scan loop in `get_fleet_size`:
the last snapshot in list order whose date is `<= target_date`. -/
def findBefore (snaps : List Snapshot) (target : Nat) : Option Snapshot :=
  snaps.foldl (fun acc s => if s.date ≤ target then some s else acc) none

/-- The `after` variable at the end of the scan loop in `get_fleet_size`:
the first snapshot in list order whose date is `>= target_date`. -/
def findAfter (snaps : List Snapshot) (target : Nat) : Option Snapshot :=
  snaps.foldl (fun acc s => if s.date ≥ target ∧ acc = none then some s else acc) none

/-- `FleetInterpolator.get_fleet_size`: interpolated fleet size for a date.
Returns 25 with no snapshots; clamps before the first and after the last
snapshot; otherwise linearly interpolates between the bracketing snapshots
with the ratio of elapsed to total days, truncating the result toward zero
exactly as Python `int(...)` does. -/
def get_fleet_size (fi : FleetInterpolator) (target : Nat) : Int :=
  match fi.snapshots with
  | [] => 25
  | s0 :: _ =>
    match findBefore fi.snapshots target, findAfter fi.snapshots target with
    | none, _ => s0.count
    | some b, none => b.count
    | some b, some a =>
      if b.date = a.date then b.count
      else
        let total_days : Int := (a.date : Int) - (b.date : Int)
        let elapsed_days : Int := (target : Int) - (b.date : Int)
        let frac : Rat := if 0 < total_days then (elapsed_days : Rat) / (total_days : Rat) else 0
        truncQ ((b.count : Rat) + ((a.count : Rat) - (b.count : Rat)) * frac)

/-- One entry of the `daily_breakdown` list built by
`calculate_miles_in_period`. -/
structure DayEntry where
  date : Nat
  fleet_size : Int
  daily_miles : Int
  excluded : Bool
  deriving DecidableEq, Repr

/-- The miles attributed to one calendar day inside the day loop of
`calculate_miles_in_period`: zero on an excluded day, otherwise the
interpolated fleet size times the per-vehicle daily mileage. -/
def dayMiles (fi : FleetInterpolator) (daily_mpv : Int) (excluded : Nat → Bool)
    (d : Nat) : Int :=
  if excluded d then 0 else get_fleet_size fi d * daily_mpv

/-- The days visited by the `while current_date <= end_date` loop:
every calendar day from `s` to `e` inclusive, empty when `s > e`. -/
def daysInRange (s e : Nat) : List Nat :=
  (List.range (e + 1 - s)).map (fun i => s + i)

/-- `FleetInterpolator.calculate_miles_in_period`: total miles over the
inclusive day range plus the per-day breakdown records. -/
def calculate_miles_in_period (fi : FleetInterpolator) (start_date end_date : Nat)
    (daily_mpv : Int) (excluded : Nat → Bool) : Int × List DayEntry :=
  let brk := (daysInRange start_date end_date).map (fun d =>
    { date := d
      fleet_size := get_fleet_size fi d
      daily_miles := dayMiles fi daily_mpv excluded d
      excluded := excluded d : DayEntry })
  ((brk.map (fun e => e.daily_miles)).sum, brk)

/-- One output record of `calculate_mpi_between_incidents`.  The
`excluded_days` and `active_days` keys are only present in the Python dict
when the interval contained at least one excluded day; they are modelled as
`Option` fields that are `none` exactly when the keys are absent. -/
structure IntervalRecord where
  incident_number : Nat
  incident_date : Nat
  days_since_previous : Int
  miles_since_previous : Int
  mpi_since_previous : Int
  avg_fleet_size : Rat
  cumulative_miles : Int
  cumulative_incidents : Nat
  cumulative_mpi : Rat
  excluded_days : Option Nat
  active_days : Option Int
  deriving DecidableEq, Repr

/-- The result dict appended for one qualifying incident inside
`calculate_mpi_between_incidents`, built from the loop state
(`prev_date`, `incident_num`, `cumulative_miles`, `cumulative_incidents`)
at that iteration. -/
def mkIntervalRecord (fi : FleetInterpolator) (daily_mpv : Int) (excluded : Nat → Bool)
    (prev d : Nat) (num : Nat) (cumMiles : Int) (cumInc : Nat) : IntervalRecord :=
  let mb := calculate_miles_in_period fi prev d daily_mpv excluded
  let excl := (mb.2.filter (fun e => e.excluded)).length
  { incident_number := num + 1
    incident_date := d
    days_since_previous := (d : Int) - (prev : Int)
    miles_since_previous := mb.1
    mpi_since_previous := mb.1
    avg_fleet_size :=
      if mb.2.length = 0 then 0
      else ((mb.2.map (fun e => (e.fleet_size : Rat))).sum) / (mb.2.length : Rat)
    cumulative_miles := cumMiles + mb.1
    cumulative_incidents := cumInc + 1
    cumulative_mpi := ((cumMiles + mb.1 : Int) : Rat) / ((cumInc + 1 : Nat) : Rat)
    excluded_days := if 0 < excl then some excl else none
    active_days := if 0 < excl then some (((d : Int) - (prev : Int)) - (excl : Int)) else none }

/-- The `for idx, row in sorted_incidents.iterrows()` loop of
`calculate_mpi_between_incidents`, with the loop state
(`prev_date`, `incident_num`, `cumulative_miles`, `cumulative_incidents`)
passed explicitly.  `incident_num` is incremented before the
service-start check, exactly as in the source. -/
def mpiLoop (fi : FleetInterpolator) (daily_mpv : Int) (excluded : Nat → Bool)
    (service_start : Nat) :
    List Nat → Nat → Nat → Int → Nat → List IntervalRecord
  | [], _, _, _, _ => []
  | d :: rest, prev, num, cumMiles, cumInc =>
    if d < service_start then
      mpiLoop fi daily_mpv excluded service_start rest prev (num + 1) cumMiles cumInc
    else
      mkIntervalRecord fi daily_mpv excluded prev d num cumMiles cumInc
        :: mpiLoop fi daily_mpv excluded service_start rest d (num + 1)
            (cumMiles + (calculate_miles_in_period fi prev d daily_mpv excluded).1) (cumInc + 1)

/-- The loop state of `calculate_mpi_between_incidents` after consuming a
list of incident dates: (`prev_date`, `incident_num`, `cumulative_miles`,
`cumulative_incidents`). -/
def runState (fi : FleetInterpolator) (daily_mpv : Int) (excluded : Nat → Bool)
    (service_start : Nat) :
    List Nat → Nat × Nat × Int × Nat → Nat × Nat × Int × Nat
  | [], st => st
  | d :: rest, (prev, num, cumMiles, cumInc) =>
    if d < service_start then
      runState fi daily_mpv excluded service_start rest (prev, num + 1, cumMiles, cumInc)
    else
      runState fi daily_mpv excluded service_start rest
        (d, num + 1, cumMiles + (calculate_miles_in_period fi prev d daily_mpv excluded).1, cumInc + 1)

/-- `calculate_mpi_between_incidents`: sorts the incident dates ascending
(the `sort_values` call, modelled by an ascending sort; only the dates are
tracked, so stability is irrelevant) and runs the interval loop starting
from `prev_date = service_start` with all accumulators zero.  Incidents
with unparseable dates are dropped upstream (`dropna`), so the input is
the list of valid incident dates. -/
def calculate_mpi_between_incidents (fi : FleetInterpolator) (daily_mpv : Int)
    (excluded : Nat → Bool) (service_start : Nat) (incidents : List Nat) :
    List IntervalRecord :=
  mpiLoop fi daily_mpv excluded service_start
    (incidents.insertionSort (fun a b => a ≤ b)) service_start 0 0 0

/-- The `mpi_values` list built by `MPITrendAnalyzer.__init__`: the
`mpi_since_previous` field of each record, in order. -/
def analyzer_mpi_values (data : List IntervalRecord) : List Int :=
  data.map (fun r => r.mpi_since_previous)

/-- The `days_since_start` list built by `MPITrendAnalyzer.__init__`:
the date of each record minus the date of the first record. -/
def analyzer_days_since_start (data : List IntervalRecord) : List Int :=
  match data with
  | [] => []
  | d0 :: _ => data.map (fun r => (r.incident_date : Int) - (d0.incident_date : Int))

/-- Residual sum of squares `ss_res = sum((y - y_pred)**2)` in
`exponential_trend`. -/
def ssRes (y yPred : List Rat) : Rat :=
  ((y.zip yPred).map (fun p => (p.1 - p.2) ^ 2)).sum

/-- The mean `np.mean(y)` of the observed values. -/
def meanQ (y : List Rat) : Rat := y.sum / (y.length : Rat)

/-- Total sum of squares `ss_tot = sum((y - mean(y))**2)` in
`exponential_trend`. -/
def ssTot (y : List Rat) : Rat :=
  (y.map (fun v => (v - meanQ y) ^ 2)).sum

/-- The `r_squared` computation of `exponential_trend`:
`1 - ss_res/ss_tot` when `ss_tot > 0`, else `0`. -/
def rSquared (y yPred : List Rat) : Rat :=
  if 0 < ssTot y then 1 - ssRes y yPred / ssTot y else 0

/-- Result of a trend fit: either the success dict (which carries an
`r_squared` key) or an error dict carrying only an error message. -/
inductive FitResult where
  | success (a b r_squared : Rat) : FitResult
  | failure (msg : String) : FitResult
  deriving DecidableEq, Repr

/-- `MPITrendAnalyzer.exponential_trend`.  `hasNumpy` and `hasScipy` model
the import guards.  The scipy optimizer is external code, modelled by the
`optimizer` oracle: `Except.error e` models `curve_fit` raising with text
`e` (caught by the `except` clause), `Except.ok (a, b, yPred)` models it
returning parameters `(a, b)` whose predicted values on the data are
`yPred`. -/
def exponential_trend (hasNumpy hasScipy : Bool) (mpi_values : List Rat)
    (optimizer : Except String (Rat × Rat × List Rat)) : FitResult :=
  if !hasNumpy || !hasScipy || mpi_values.length < 3 then
    .failure "Insufficient data or scipy not available"
  else
    match optimizer with
    | .error e => .failure ("Exponential fit failed: " ++ e)
    | .ok (a, b, yPred) => .success a b (rSquared mpi_values yPred)

/-- Result of `MPITrendAnalyzer.get_best_fit`: either the best-model dict
naming the winning model, or the error dict. -/
inductive BestFitResult where
  | best (model : String) (fit : FitResult) : BestFitResult
  | failure (msg : String) : BestFitResult
  deriving DecidableEq, Repr

/-- `MPITrendAnalyzer.get_best_fit`: calls `exponential_trend` and checks
for an `r_squared` key (present exactly on success); on success wraps the
exponential fit as the best model, otherwise returns the explicit
"No models could be fitted" error. -/
def get_best_fit (hasNumpy hasScipy : Bool) (mpi_values : List Rat)
    (optimizer : Except String (Rat × Rat × List Rat)) : BestFitResult :=
  match exponential_trend hasNumpy hasScipy mpi_values optimizer with
  | .success a b r => .best "exponential" (.success a b r)
  | .failure _ => .failure "No models could be fitted"

/-- Modelled from the spec: the outcome of the spec `SelectBest` — either
a chosen fit with its model kind and `r_squared`, or an explicit
"no model fits" result. -/
inductive SpecSelect where
  | fitted (model : String) (r_squared : Rat)
  | noFit
  deriving DecidableEq, Repr

/-- Modelled from the spec: `FitLinear` — ordinary least squares of
`mpi = a + b * t`; fails (returns `none`) when fewer than 2 points exist;
`r_squared` is the correlation coefficient squared. -/
def fitLinearSpec (pts : List (Rat × Rat)) : Option Rat :=
  if pts.length < 2 then none
  else
    let n : Rat := (pts.length : Rat)
    let tbar : Rat := (pts.map (fun p => p.1)).sum / n
    let ybar : Rat := (pts.map (fun p => p.2)).sum / n
    let sxx : Rat := (pts.map (fun p => (p.1 - tbar) ^ 2)).sum
    let syy : Rat := (pts.map (fun p => (p.2 - ybar) ^ 2)).sum
    let sxy : Rat := (pts.map (fun p => (p.1 - tbar) * (p.2 - ybar))).sum
    some (if sxx * syy = 0 then 0 else sxy ^ 2 / (sxx * syy))

/-- Modelled from the spec: `SelectBest` — run the linear and the
exponential candidate fits; among the fits that succeeded pick the one
with the higher `r_squared`, return the single successful fit if only one
succeeded, and an explicit "no model fits" result if none succeeded.  The
exponential candidate fails below 3 points; with 3 or more points its
outcome (success with some `r_squared`, or failure) comes from the
external optimizer, modelled by the `expOutcome` oracle. -/
def selectBestSpec (pts : List (Rat × Rat)) (expOutcome : Option Rat) : SpecSelect :=
  let expFit : Option Rat := if pts.length < 3 then none else expOutcome
  match fitLinearSpec pts, expFit with
  | some rl, some re => if re ≤ rl then .fitted "linear" rl else .fitted "exponential" re
  | some rl, none => .fitted "linear" rl
  | none, some re => .fitted "exponential" re
  | none, none => .noFit

/-! ### Arithmetic facts about truncation toward zero -/

theorem truncQ_le {hi : Int} {q : Rat} (h : q ≤ (hi : Rat)) : truncQ q ≤ hi := by
  unfold truncQ
  split
  · exact Int.ceil_le.mpr h
  · calc ⌊q⌋ ≤ ⌊(hi : Rat)⌋ := Int.floor_le_floor h
      _ = hi := Int.floor_intCast hi

theorem le_truncQ {lo : Int} {q : Rat} (h : (lo : Rat) ≤ q) : lo ≤ truncQ q := by
  unfold truncQ
  split
  · calc lo = ⌈(lo : Rat)⌉ := (Int.ceil_intCast lo).symm
      _ ≤ ⌈q⌉ := Int.ceil_le_ceil h
  · exact Int.le_floor.mpr h

theorem truncQ_mono {q q' : Rat} (h : q ≤ q') : truncQ q ≤ truncQ q' := by
  unfold truncQ
  split <;> split
  · exact Int.ceil_le_ceil h
  · rename_i hq hq'
    have h1 : ⌈q⌉ ≤ 0 := by
      have : q ≤ ((0 : Int) : Rat) := by push_cast; linarith
      exact Int.ceil_le.mpr this
    have h2 : (0 : Int) ≤ ⌊q'⌋ := by
      have : ((0 : Int) : Rat) ≤ q' := by push_cast; linarith
      exact Int.le_floor.mpr this
    omega
  · rename_i hq hq'
    exact absurd (lt_of_le_of_lt h hq') hq
  · exact Int.floor_le_floor h

theorem interp_between (B1 B2 : Int) {r : Rat} (h0 : 0 ≤ r) (h1 : r ≤ 1) :
    min B1 B2 ≤ truncQ ((B1 : Rat) + ((B2 : Rat) - (B1 : Rat)) * r)
    ∧ truncQ ((B1 : Rat) + ((B2 : Rat) - (B1 : Rat)) * r) ≤ max B1 B2 := by
  rcases le_total B1 B2 with hb | hb
  · have hbq : (B1 : Rat) ≤ (B2 : Rat) := by exact_mod_cast hb
    have hlo : (B1 : Rat) ≤ (B1 : Rat) + ((B2 : Rat) - (B1 : Rat)) * r := by nlinarith
    have hhi : (B1 : Rat) + ((B2 : Rat) - (B1 : Rat)) * r ≤ (B2 : Rat) := by nlinarith
    exact ⟨le_trans (min_le_left _ _) (le_truncQ hlo),
      le_trans (truncQ_le hhi) (le_max_right _ _)⟩
  · have hbq : (B2 : Rat) ≤ (B1 : Rat) := by exact_mod_cast hb
    have hlo : (B2 : Rat) ≤ (B1 : Rat) + ((B2 : Rat) - (B1 : Rat)) * r := by nlinarith
    have hhi : (B1 : Rat) + ((B2 : Rat) - (B1 : Rat)) * r ≤ (B1 : Rat) := by nlinarith
    exact ⟨le_trans (min_le_right _ _) (le_truncQ hlo),
      le_trans (truncQ_le hhi) (le_max_left _ _)⟩

theorem interp_mono (B1 B2 : Int) {r r' : Rat} (hb : B1 ≤ B2) (hr : r ≤ r') :
    truncQ ((B1 : Rat) + ((B2 : Rat) - (B1 : Rat)) * r)
      ≤ truncQ ((B1 : Rat) + ((B2 : Rat) - (B1 : Rat)) * r') := by
  apply truncQ_mono
  have hbq : (B1 : Rat) ≤ (B2 : Rat) := by exact_mod_cast hb
  nlinarith

theorem interp_anti (B1 B2 : Int) {r r' : Rat} (hb : B2 ≤ B1) (hr : r ≤ r') :
    truncQ ((B1 : Rat) + ((B2 : Rat) - (B1 : Rat)) * r')
      ≤ truncQ ((B1 : Rat) + ((B2 : Rat) - (B1 : Rat)) * r) := by
  apply truncQ_mono
  have hbq : (B2 : Rat) ≤ (B1 : Rat) := by exact_mod_cast hb
  nlinarith

/-! ### Characterisation of the bracketing-snapshot scan -/

theorem findBefore_fold_spec (t : Nat) :
    ∀ (l : List Snapshot) (acc : Option Snapshot) (s : Snapshot),
      l.foldl (fun acc x => if x.date ≤ t then some x else acc) acc = some s →
      acc = some s ∨ (s ∈ l ∧ s.date ≤ t) := by
  intro l
  induction l with
  | nil => intro acc s h; exact Or.inl h
  | cons x xs ih =>
    intro acc s h
    simp only [List.foldl_cons] at h
    rcases ih _ s h with h1 | h1
    · by_cases hx : x.date ≤ t
      · simp only [if_pos hx] at h1
        cases h1
        exact Or.inr ⟨List.mem_cons_self _ _, hx⟩
      · simp only [if_neg hx] at h1
        exact Or.inl h1
    · exact Or.inr ⟨List.mem_cons_of_mem _ h1.1, h1.2⟩

theorem findBefore_mem {l : List Snapshot} {t : Nat} {s : Snapshot}
    (h : findBefore l t = some s) : s ∈ l ∧ s.date ≤ t := by
  rcases findBefore_fold_spec t l none s h with h1 | h1
  · cases h1
  · exact h1

theorem findBefore_skip (t : Nat) :
    ∀ (l : List Snapshot) (acc : Option Snapshot), (∀ s ∈ l, ¬ s.date ≤ t) →
      l.foldl (fun acc x => if x.date ≤ t then some x else acc) acc = acc := by
  intro l
  induction l with
  | nil => intro acc _; rfl
  | cons x xs ih =>
    intro acc h
    simp only [List.foldl_cons, if_neg (h x (List.mem_cons_self _ _))]
    exact ih acc (fun s hs => h s (List.mem_cons_of_mem _ hs))

theorem findAfter_fold_spec (t : Nat) :
    ∀ (l : List Snapshot) (acc : Option Snapshot) (s : Snapshot),
      l.foldl (fun acc x => if x.date ≥ t ∧ acc = none then some x else acc) acc = some s →
      acc = some s ∨ (s ∈ l ∧ t ≤ s.date) := by
  intro l
  induction l with
  | nil => intro acc s h; exact Or.inl h
  | cons x xs ih =>
    intro acc s h
    simp only [List.foldl_cons] at h
    rcases ih _ s h with h1 | h1
    · by_cases hx : x.date ≥ t ∧ acc = none
      · simp only [if_pos hx] at h1
        cases h1
        exact Or.inr ⟨List.mem_cons_self _ _, hx.1⟩
      · simp only [if_neg hx] at h1
        exact Or.inl h1
    · exact Or.inr ⟨List.mem_cons_of_mem _ h1.1, h1.2⟩

theorem findAfter_mem {l : List Snapshot} {t : Nat} {s : Snapshot}
    (h : findAfter l t = some s) : s ∈ l ∧ t ≤ s.date := by
  rcases findAfter_fold_spec t l none s h with h1 | h1
  · cases h1
  · exact h1

theorem findAfter_keep (t : Nat) :
    ∀ (l : List Snapshot) (x : Snapshot),
      l.foldl (fun acc s => if s.date ≥ t ∧ acc = none then some s else acc) (some x) = some x := by
  intro l
  induction l with
  | nil => intro x; rfl
  | cons y ys ih =>
    intro x
    have : ¬ (y.date ≥ t ∧ (some x : Option Snapshot) = none) := by
      rintro ⟨-, h⟩; cases h
    simp only [List.foldl_cons, if_neg this]
    exact ih x

theorem findAfter_none (t : Nat) :
    ∀ (l : List Snapshot), (∀ s ∈ l, ¬ t ≤ s.date) →
      l.foldl (fun acc s => if s.date ≥ t ∧ acc = none then some s else acc) none = none := by
  intro l
  induction l with
  | nil => intro _; rfl
  | cons x xs ih =>
    intro h
    have hx : ¬ (x.date ≥ t ∧ (none : Option Snapshot) = none) := by
      rintro ⟨h1, -⟩; exact h x (List.mem_cons_self _ _) h1
    rw [List.foldl_cons, if_neg hx]
    exact ih (fun s hs => h s (List.mem_cons_of_mem _ hs))

theorem findBefore_adjacent {l1 l2 : List Snapshot} {b a : Snapshot} {t : Nat}
    (hl2 : ∀ s ∈ l2, ¬ s.date ≤ t) (hb : b.date ≤ t) (ha : ¬ a.date ≤ t) :
    findBefore (l1 ++ b :: a :: l2) t = some b := by
  unfold findBefore
  rw [List.foldl_append]
  simp only [List.foldl_cons, if_pos hb, if_neg ha]
  exact findBefore_skip t l2 (some b) hl2

theorem findAfter_adjacent {l1 l2 : List Snapshot} {b a : Snapshot} {t : Nat}
    (hl1 : ∀ s ∈ l1, ¬ t ≤ s.date) (hb : ¬ t ≤ b.date) (ha : t ≤ a.date) :
    findAfter (l1 ++ b :: a :: l2) t = some a := by
  unfold findAfter
  rw [List.foldl_append]
  have h1 : l1.foldl (fun acc s => if s.date ≥ t ∧ acc = none then some s else acc) none = none :=
    findAfter_none t l1 hl1
  rw [h1]
  have h2 : ¬ (b.date ≥ t ∧ (none : Option Snapshot) = none) := by
    rintro ⟨h3, -⟩; exact hb h3
  have h3 : (a.date ≥ t ∧ (none : Option Snapshot) = none) := ⟨ha, rfl⟩
  rw [List.foldl_cons, if_neg h2, List.foldl_cons, if_pos h3]
  exact findAfter_keep t l2 a

/-! ### The interpolation branch of get_fleet_size between adjacent snapshots -/

theorem get_fleet_size_adjacent {fi : FleetInterpolator} {l1 l2 : List Snapshot}
    {b a : Snapshot} {t : Nat}
    (hsnap : fi.snapshots = l1 ++ b :: a :: l2)
    (hl1 : ∀ s ∈ l1, s.date ≤ b.date)
    (hl2 : ∀ s ∈ l2, a.date ≤ s.date)
    (hbt : b.date < t) (hta : t < a.date) :
    get_fleet_size fi t =
      truncQ ((b.count : Rat) + ((a.count : Rat) - (b.count : Rat)) *
        (((t : Rat) - (b.date : Rat)) / ((a.date : Rat) - (b.date : Rat)))) := by
  have hc2 : ∀ s ∈ l2, ¬ s.date ≤ t := by
    intro s hs
    have := hl2 s hs
    omega
  have hc1 : ∀ s ∈ l1, ¬ t ≤ s.date := by
    intro s hs
    have := hl1 s hs
    omega
  have hB : findBefore fi.snapshots t = some b := by
    rw [hsnap]
    exact findBefore_adjacent hc2 (le_of_lt hbt) (by omega)
  have hA : findAfter fi.snapshots t = some a := by
    rw [hsnap]
    exact findAfter_adjacent hc1 (by omega) (le_of_lt hta)
  obtain ⟨snaps⟩ := fi
  simp only at hsnap hB hA
  subst hsnap
  rcases l1 with _ | ⟨x, xs⟩
  · simp only [List.nil_append] at hB hA ⊢
    simp only [get_fleet_size, hB, hA]
    rw [if_neg (by omega : ¬ b.date = a.date)]
    rw [if_pos (by omega : (0:Int) < (a.date : Int) - (b.date : Int))]
    congr 1
    push_cast
    ring
  · simp only [List.cons_append] at hB hA ⊢
    simp only [get_fleet_size, hB, hA]
    rw [if_neg (by omega : ¬ b.date = a.date)]
    rw [if_pos (by omega : (0:Int) < (a.date : Int) - (b.date : Int))]
    congr 1
    push_cast
    ring

/-- With non-negative snapshot counts, the interpolated fleet size is
non-negative at every date (the no-data fallback 25 included). -/
theorem get_fleet_size_nonneg (fi : FleetInterpolator) (t : Nat)
    (hc : ∀ s ∈ fi.snapshots, 0 ≤ s.count) : 0 ≤ get_fleet_size fi t := by
  obtain ⟨snaps⟩ := fi
  simp only at hc
  rcases hsn : snaps with _ | ⟨s0, rest⟩
  · subst hsn
    simp [get_fleet_size]
  · subst hsn
    rcases hB : findBefore (s0 :: rest) t with _ | b
    · simpa [get_fleet_size, hB] using hc s0 (List.mem_cons_self _ _)
    · rcases hA : findAfter (s0 :: rest) t with _ | a
      · have hbm := findBefore_mem hB
        simpa [get_fleet_size, hB, hA] using hc b hbm.1
      · have hbm := findBefore_mem hB
        have ham := findAfter_mem hA
        by_cases heq : b.date = a.date
        · simpa [get_fleet_size, hB, hA, heq] using hc b hbm.1
        · simp only [get_fleet_size, hB, hA, if_neg heq]
          have hbd : b.date ≤ t := hbm.2
          have had : t ≤ a.date := ham.2
          have hlt : b.date < a.date := by omega
          rw [if_pos (by omega : (0:Int) < (a.date : Int) - (b.date : Int))]
          push_cast
          have e1 : (b.date : Rat) ≤ (t : Rat) := by exact_mod_cast hbd
          have e2 : (t : Rat) ≤ (a.date : Rat) := by exact_mod_cast had
          have e3 : (b.date : Rat) < (a.date : Rat) := by exact_mod_cast hlt
          have h0 : (0:Rat) ≤ ((t : Rat) - (b.date : Rat)) / ((a.date : Rat) - (b.date : Rat)) := by
            apply div_nonneg <;> linarith
          have h1 : ((t : Rat) - (b.date : Rat)) / ((a.date : Rat) - (b.date : Rat)) ≤ 1 := by
            rw [div_le_one (by linarith)]
            linarith
          have hbtw := interp_between b.count a.count h0 h1
          have hmin : (0:Int) ≤ min b.count a.count :=
            le_min (hc b hbm.1) (hc a ham.1)
          exact le_trans hmin hbtw.1

/-! ### The day-by-day mileage summation -/

theorem list_range_map_sum (n : Nat) (g : Nat → Int) :
    ((List.range n).map g).sum = ∑ i ∈ Finset.range n, g i := by
  induction n with
  | zero => rfl
  | succ m ih =>
    rw [List.range_succ, List.map_append, List.sum_append, Finset.sum_range_succ, ih]
    simp

/-- The total-miles component of `calculate_miles_in_period` is the sum of
the per-day miles over the inclusive day interval. -/
theorem daysInRange_map_sum (f : Nat → Int) (s e : Nat) :
    ((daysInRange s e).map f).sum = ∑ d ∈ Finset.Icc s e, f d := by
  unfold daysInRange
  rw [List.map_map]
  have h1 : (f ∘ fun i => s + i) = fun i => f (s + i) := rfl
  rw [h1, list_range_map_sum, ← Nat.Ico_succ_right, Finset.sum_Ico_eq_sum_range]

theorem calculate_miles_fst (fi : FleetInterpolator) (s e : Nat) (daily_mpv : Int)
    (excluded : Nat → Bool) :
    (calculate_miles_in_period fi s e daily_mpv excluded).1
      = ∑ d ∈ Finset.Icc s e, dayMiles fi daily_mpv excluded d := by
  have h2 : (calculate_miles_in_period fi s e daily_mpv excluded).1
      = ((daysInRange s e).map (fun d => dayMiles fi daily_mpv excluded d)).sum := by
    show ((((daysInRange s e).map _).map _)).sum = _
    rw [List.map_map]
    rfl
  rw [h2, daysInRange_map_sum]

/-- Mileage additivity over a split of the inclusive day range. -/
theorem calculate_miles_split (fi : FleetInterpolator) {s mid e : Nat} (daily_mpv : Int)
    (excluded : Nat → Bool) (h1 : s ≤ mid) (h2 : mid ≤ e) :
    (calculate_miles_in_period fi s e daily_mpv excluded).1
      = (calculate_miles_in_period fi s mid daily_mpv excluded).1
        + (calculate_miles_in_period fi (mid + 1) e daily_mpv excluded).1 := by
  rw [calculate_miles_fst, calculate_miles_fst, calculate_miles_fst]
  rw [← Nat.Ico_succ_right, ← Nat.Ico_succ_right, ← Nat.Ico_succ_right]
  rw [Finset.sum_Ico_consecutive _ (by omega) (by omega)]

/-- A one-day range accumulates exactly the miles of that one day. -/
theorem calculate_miles_single (fi : FleetInterpolator) (d : Nat) (daily_mpv : Int)
    (excluded : Nat → Bool) :
    (calculate_miles_in_period fi d d daily_mpv excluded).1
      = dayMiles fi daily_mpv excluded d := by
  rw [calculate_miles_fst, Finset.Icc_self, Finset.sum_singleton]

/-- With `s ≤ e`, the inclusive range ends with day `e`: the total is the
half-open sum plus the miles of the final day. -/
theorem calculate_miles_last (fi : FleetInterpolator) {s e : Nat} (daily_mpv : Int)
    (excluded : Nat → Bool) (h : s ≤ e) :
    (calculate_miles_in_period fi s e daily_mpv excluded).1
      = (∑ d ∈ Finset.Ico s e, dayMiles fi daily_mpv excluded d)
        + dayMiles fi daily_mpv excluded e := by
  rw [calculate_miles_fst, ← Nat.Ico_succ_right, Finset.sum_Ico_succ_top h]

/-- Non-negative counts and daily mileage give non-negative period miles. -/
theorem calculate_miles_nonneg (fi : FleetInterpolator) (s e : Nat) (daily_mpv : Int)
    (excluded : Nat → Bool) (hd : 0 ≤ daily_mpv)
    (hc : ∀ sn ∈ fi.snapshots, 0 ≤ sn.count) :
    0 ≤ (calculate_miles_in_period fi s e daily_mpv excluded).1 := by
  rw [calculate_miles_fst]
  apply Finset.sum_nonneg
  intro d _
  unfold dayMiles
  split
  · exact le_refl 0
  · exact mul_nonneg (get_fleet_size_nonneg fi d hc) hd

/-! ### Equations and invariants of the incident-interval loop -/

theorem mpiLoop_nil (fi : FleetInterpolator) (dm : Int) (ex : Nat → Bool) (st : Nat)
    (prev num : Nat) (cm : Int) (ci : Nat) :
    mpiLoop fi dm ex st [] prev num cm ci = [] := rfl

theorem mpiLoop_cons_skip (fi : FleetInterpolator) (dm : Int) (ex : Nat → Bool) (st : Nat)
    {d : Nat} (rest : List Nat) (prev num : Nat) (cm : Int) (ci : Nat) (h : d < st) :
    mpiLoop fi dm ex st (d :: rest) prev num cm ci
      = mpiLoop fi dm ex st rest prev (num + 1) cm ci := by
  simp [mpiLoop, h]

theorem mpiLoop_cons_emit (fi : FleetInterpolator) (dm : Int) (ex : Nat → Bool) (st : Nat)
    {d : Nat} (rest : List Nat) (prev num : Nat) (cm : Int) (ci : Nat) (h : ¬ d < st) :
    mpiLoop fi dm ex st (d :: rest) prev num cm ci
      = mkIntervalRecord fi dm ex prev d num cm ci
          :: mpiLoop fi dm ex st rest d (num + 1)
              (cm + (calculate_miles_in_period fi prev d dm ex).1) (ci + 1) := by
  simp [mpiLoop, h]

theorem runState_nil (fi : FleetInterpolator) (dm : Int) (ex : Nat → Bool) (st : Nat)
    (s : Nat × Nat × Int × Nat) : runState fi dm ex st [] s = s := rfl

theorem runState_cons_skip (fi : FleetInterpolator) (dm : Int) (ex : Nat → Bool) (st : Nat)
    {d : Nat} (rest : List Nat) (prev num : Nat) (cm : Int) (ci : Nat) (h : d < st) :
    runState fi dm ex st (d :: rest) (prev, num, cm, ci)
      = runState fi dm ex st rest (prev, num + 1, cm, ci) := by
  simp [runState, h]

theorem runState_cons_emit (fi : FleetInterpolator) (dm : Int) (ex : Nat → Bool) (st : Nat)
    {d : Nat} (rest : List Nat) (prev num : Nat) (cm : Int) (ci : Nat) (h : ¬ d < st) :
    runState fi dm ex st (d :: rest) (prev, num, cm, ci)
      = runState fi dm ex st rest
          (d, num + 1, cm + (calculate_miles_in_period fi prev d dm ex).1, ci + 1) := by
  simp [runState, h]

/-- Splitting the incident list splits the emitted records, with the
second half starting from the loop state left by the first half. -/
theorem mpiLoop_append (fi : FleetInterpolator) (dm : Int) (ex : Nat → Bool) (st : Nat) :
    ∀ (l1 l2 : List Nat) (prev num : Nat) (cm : Int) (ci : Nat),
      mpiLoop fi dm ex st (l1 ++ l2) prev num cm ci
        = mpiLoop fi dm ex st l1 prev num cm ci
          ++ mpiLoop fi dm ex st l2
              (runState fi dm ex st l1 (prev, num, cm, ci)).1
              (runState fi dm ex st l1 (prev, num, cm, ci)).2.1
              (runState fi dm ex st l1 (prev, num, cm, ci)).2.2.1
              (runState fi dm ex st l1 (prev, num, cm, ci)).2.2.2 := by
  intro l1
  induction l1 with
  | nil =>
    intro l2 prev num cm ci
    simp [mpiLoop_nil, runState_nil]
  | cons d rest ih =>
    intro l2 prev num cm ci
    by_cases h : d < st
    · rw [List.cons_append, mpiLoop_cons_skip fi dm ex st _ _ _ _ _ h,
        mpiLoop_cons_skip fi dm ex st _ _ _ _ _ h,
        runState_cons_skip fi dm ex st _ _ _ _ _ h, ih]
    · rw [List.cons_append, mpiLoop_cons_emit fi dm ex st _ _ _ _ _ h,
        mpiLoop_cons_emit fi dm ex st _ _ _ _ _ h,
        runState_cons_emit fi dm ex st _ _ _ _ _ h, ih, List.cons_append]

theorem mkIntervalRecord_number (fi : FleetInterpolator) (dm : Int) (ex : Nat → Bool)
    (prev d num : Nat) (cm : Int) (ci : Nat) :
    (mkIntervalRecord fi dm ex prev d num cm ci).incident_number = num + 1 := rfl

theorem mkIntervalRecord_date (fi : FleetInterpolator) (dm : Int) (ex : Nat → Bool)
    (prev d num : Nat) (cm : Int) (ci : Nat) :
    (mkIntervalRecord fi dm ex prev d num cm ci).incident_date = d := rfl

theorem mkIntervalRecord_days (fi : FleetInterpolator) (dm : Int) (ex : Nat → Bool)
    (prev d num : Nat) (cm : Int) (ci : Nat) :
    (mkIntervalRecord fi dm ex prev d num cm ci).days_since_previous
      = (d : Int) - (prev : Int) := rfl

theorem mkIntervalRecord_miles (fi : FleetInterpolator) (dm : Int) (ex : Nat → Bool)
    (prev d num : Nat) (cm : Int) (ci : Nat) :
    (mkIntervalRecord fi dm ex prev d num cm ci).miles_since_previous
      = (calculate_miles_in_period fi prev d dm ex).1 := rfl

theorem mkIntervalRecord_mpi (fi : FleetInterpolator) (dm : Int) (ex : Nat → Bool)
    (prev d num : Nat) (cm : Int) (ci : Nat) :
    (mkIntervalRecord fi dm ex prev d num cm ci).mpi_since_previous
      = (calculate_miles_in_period fi prev d dm ex).1 := rfl

theorem mkIntervalRecord_cumMiles (fi : FleetInterpolator) (dm : Int) (ex : Nat → Bool)
    (prev d num : Nat) (cm : Int) (ci : Nat) :
    (mkIntervalRecord fi dm ex prev d num cm ci).cumulative_miles
      = cm + (calculate_miles_in_period fi prev d dm ex).1 := rfl

theorem mkIntervalRecord_cumInc (fi : FleetInterpolator) (dm : Int) (ex : Nat → Bool)
    (prev d num : Nat) (cm : Int) (ci : Nat) :
    (mkIntervalRecord fi dm ex prev d num cm ci).cumulative_incidents = ci + 1 := rfl

theorem mkIntervalRecord_cumMpi (fi : FleetInterpolator) (dm : Int) (ex : Nat → Bool)
    (prev d num : Nat) (cm : Int) (ci : Nat) :
    (mkIntervalRecord fi dm ex prev d num cm ci).cumulative_mpi
      = (((mkIntervalRecord fi dm ex prev d num cm ci).cumulative_miles : Rat)
          / ((mkIntervalRecord fi dm ex prev d num cm ci).cumulative_incidents : Rat)) := rfl

/-- Loop invariant: emitted records have non-decreasing cumulative miles
(given non-negative inputs), cumulative incident counts that grow by
exactly one, counts strictly above the entry count, and a cumulative MPI
that is always the quotient of the two cumulative fields. -/
theorem mpiLoop_invariant (fi : FleetInterpolator) (dm : Int) (ex : Nat → Bool) (st : Nat)
    (hd : 0 ≤ dm) (hc : ∀ s ∈ fi.snapshots, 0 ≤ s.count) :
    ∀ (l : List Nat) (prev num : Nat) (cm : Int) (ci : Nat),
      List.Chain' (fun r r' => r.cumulative_miles ≤ r'.cumulative_miles ∧
          r.cumulative_incidents + 1 = r'.cumulative_incidents)
        (mpiLoop fi dm ex st l prev num cm ci)
      ∧ (∀ r ∈ (mpiLoop fi dm ex st l prev num cm ci).head?,
          cm ≤ r.cumulative_miles ∧ r.cumulative_incidents = ci + 1)
      ∧ (∀ r ∈ mpiLoop fi dm ex st l prev num cm ci,
          ci + 1 ≤ r.cumulative_incidents
          ∧ r.cumulative_mpi = (r.cumulative_miles : Rat) / (r.cumulative_incidents : Rat)) := by
  intro l
  induction l with
  | nil =>
    intro prev num cm ci
    refine ⟨List.chain'_nil, ?_, ?_⟩ <;> simp [mpiLoop_nil]
  | cons d rest ih =>
    intro prev num cm ci
    by_cases h : d < st
    · rw [mpiLoop_cons_skip fi dm ex st _ _ _ _ _ h]
      exact ih prev (num + 1) cm ci
    · rw [mpiLoop_cons_emit fi dm ex st _ _ _ _ _ h]
      have hmn := calculate_miles_nonneg fi prev d dm ex hd hc
      obtain ⟨ihC, ihH, ihM⟩ :=
        ih d (num + 1) (cm + (calculate_miles_in_period fi prev d dm ex).1) (ci + 1)
      refine ⟨?_, ?_, ?_⟩
      · refine List.chain'_cons'.mpr ⟨?_, ihC⟩
        intro y hy
        obtain ⟨h1, h2⟩ := ihH y hy
        refine ⟨?_, ?_⟩
        · rw [mkIntervalRecord_cumMiles]
          exact h1
        · rw [mkIntervalRecord_cumInc, h2]
      · intro r hr
        simp only [List.head?_cons, Option.mem_def, Option.some_inj] at hr
        subst hr
        refine ⟨?_, mkIntervalRecord_cumInc fi dm ex prev d num cm ci⟩
        rw [mkIntervalRecord_cumMiles]
        omega
      · intro r hr
        rcases List.mem_cons.mp hr with hr | hr
        · subst hr
          refine ⟨?_, mkIntervalRecord_cumMpi fi dm ex prev d num cm ci⟩
          rw [mkIntervalRecord_cumInc]
        · obtain ⟨h1, h2⟩ := ihM r hr
          exact ⟨by omega, h2⟩

/-- Incidents before service start consume an index increment but emit no
record and leave the rest of the state unchanged. -/
theorem mpiLoop_skip_front (fi : FleetInterpolator) (dm : Int) (ex : Nat → Bool) (st : Nat) :
    ∀ (l1 l2 : List Nat) (prev num : Nat) (cm : Int) (ci : Nat), (∀ d ∈ l1, d < st) →
      mpiLoop fi dm ex st (l1 ++ l2) prev num cm ci
        = mpiLoop fi dm ex st l2 prev (num + l1.length) cm ci := by
  intro l1
  induction l1 with
  | nil => intro l2 prev num cm ci _; rfl
  | cons d rest ih =>
    intro l2 prev num cm ci h
    rw [List.cons_append, mpiLoop_cons_skip fi dm ex st _ _ _ _ _ (h d (List.mem_cons_self _ _)),
      ih l2 prev (num + 1) cm ci (fun x hx => h x (List.mem_cons_of_mem _ hx))]
    congr 1
    simp
    omega

/-- When every incident qualifies, the loop emits one record per incident,
in order, carrying consecutive incident numbers and cumulative counts. -/
theorem mpiLoop_all_emit (fi : FleetInterpolator) (dm : Int) (ex : Nat → Bool) (st : Nat) :
    ∀ (l : List Nat) (prev num : Nat) (cm : Int) (ci : Nat), (∀ d ∈ l, ¬ d < st) →
      (mpiLoop fi dm ex st l prev num cm ci).map (fun r => r.incident_date) = l
      ∧ (mpiLoop fi dm ex st l prev num cm ci).map (fun r => r.incident_number)
          = List.range' (num + 1) l.length
      ∧ (mpiLoop fi dm ex st l prev num cm ci).map (fun r => r.cumulative_incidents)
          = List.range' (ci + 1) l.length := by
  intro l
  induction l with
  | nil =>
    intro prev num cm ci _
    refine ⟨rfl, rfl, rfl⟩
  | cons d rest ih =>
    intro prev num cm ci h
    rw [mpiLoop_cons_emit fi dm ex st _ _ _ _ _ (h d (List.mem_cons_self _ _))]
    obtain ⟨ih1, ih2, ih3⟩ :=
      ih d (num + 1) (cm + (calculate_miles_in_period fi prev d dm ex).1) (ci + 1)
        (fun x hx => h x (List.mem_cons_of_mem _ hx))
    refine ⟨?_, ?_, ?_⟩
    · rw [List.map_cons, ih1, mkIntervalRecord_date]
    · rw [List.map_cons, ih2, mkIntervalRecord_number, List.length_cons, List.range'_succ]
    · rw [List.map_cons, ih3, mkIntervalRecord_cumInc, List.length_cons, List.range'_succ]

/-! ### Sorted-list decompositions around the service-start threshold -/

theorem sorted_dropWhile_not_lt (st : Nat) :
    ∀ (l : List Nat), l.Sorted (· ≤ ·) →
      ∀ d ∈ l.dropWhile (fun x => decide (x < st)), ¬ d < st := by
  intro l
  induction l with
  | nil => intro _ d hd; simp at hd
  | cons x xs ih =>
    intro hs d hd
    rw [List.dropWhile_cons] at hd
    by_cases hx : x < st
    · rw [if_pos (by simpa using hx)] at hd
      exact ih (List.Sorted.of_cons hs) d hd
    · rw [if_neg (by simpa using hx)] at hd
      rcases List.mem_cons.mp hd with hd | hd
      · subst hd; exact hx
      · have := (List.sorted_cons.mp hs).1 d hd
        omega

theorem sorted_filter_lt_eq_takeWhile (st : Nat) :
    ∀ (l : List Nat), l.Sorted (· ≤ ·) →
      l.filter (fun x => decide (x < st)) = l.takeWhile (fun x => decide (x < st)) := by
  intro l
  induction l with
  | nil => intro _; rfl
  | cons x xs ih =>
    intro hs
    rw [List.filter_cons, List.takeWhile_cons]
    by_cases hx : x < st
    · rw [if_pos (by simpa using hx), if_pos (by simpa using hx),
        ih (List.Sorted.of_cons hs)]
    · rw [if_neg (by simpa using hx), if_neg (by simpa using hx)]
      apply List.filter_eq_nil_iff.mpr
      intro a ha
      have := (List.sorted_cons.mp hs).1 a ha
      simpa using by omega

theorem sorted_filter_ge_eq_dropWhile (st : Nat) :
    ∀ (l : List Nat), l.Sorted (· ≤ ·) →
      l.filter (fun x => decide (st ≤ x)) = l.dropWhile (fun x => decide (x < st)) := by
  intro l
  induction l with
  | nil => intro _; rfl
  | cons x xs ih =>
    intro hs
    rw [List.filter_cons, List.dropWhile_cons]
    by_cases hx : x < st
    · rw [if_neg (by simpa using by omega : ¬ (decide (st ≤ x) = true)),
        if_pos (by simpa using hx), ih (List.Sorted.of_cons hs)]
    · rw [if_pos (by simpa using by omega : decide (st ≤ x) = true),
        if_neg (by simpa using hx)]
      congr 1
      apply List.filter_eq_self.mpr
      intro a ha
      have := (List.sorted_cons.mp hs).1 a ha
      simpa using by omega

/-- Every record stores the interval miles in both `miles_since_previous`
and `mpi_since_previous`. -/
theorem mpiLoop_mpi_eq_miles (fi : FleetInterpolator) (dm : Int) (ex : Nat → Bool) (st : Nat) :
    ∀ (l : List Nat) (prev num : Nat) (cm : Int) (ci : Nat),
      (mpiLoop fi dm ex st l prev num cm ci).map (fun r => r.mpi_since_previous)
        = (mpiLoop fi dm ex st l prev num cm ci).map (fun r => r.miles_since_previous) := by
  intro l
  induction l with
  | nil => intro prev num cm ci; rfl
  | cons d rest ih =>
    intro prev num cm ci
    by_cases h : d < st
    · rw [mpiLoop_cons_skip fi dm ex st _ _ _ _ _ h]
      exact ih prev (num + 1) cm ci
    · rw [mpiLoop_cons_emit fi dm ex st _ _ _ _ _ h, List.map_cons, List.map_cons,
        mkIntervalRecord_mpi, mkIntervalRecord_miles, ih]

/-! ### Facts about the r-squared computation -/

theorem ssRes_nonneg (y yPred : List Rat) : 0 ≤ ssRes y yPred := by
  apply List.sum_nonneg
  intro x hx
  obtain ⟨p, -, hp⟩ := List.mem_map.mp hx
  subst hp
  exact sq_nonneg _

theorem rSquared_le_one (y yPred : List Rat) : rSquared y yPred ≤ 1 := by
  unfold rSquared
  split
  · have h1 : 0 ≤ ssRes y yPred / ssTot y :=
      div_nonneg (ssRes_nonneg y yPred) (by linarith)
    linarith
  · linarith

/-! ### Claim theorems -/

attribute [local semireducible] Rat.add Rat.mul Rat.sub Rat.inv

/-- C4: for every fleet timeline, stoppage set, daily mileage and dates
`start <= mid <= end`, the total miles over the inclusive range `[start, end]`
equal the total over `[start, mid]` plus the total over `[mid+1, end]`:
the day-by-day summation neither double-counts nor skips a calendar day. -/
theorem claim_C4_mileage_additivity (fi : FleetInterpolator) (daily_mpv : Int)
    (excluded : Nat → Bool) (s mid e : Nat) (h1 : s ≤ mid) (h2 : mid ≤ e) :
    (calculate_miles_in_period fi s e daily_mpv excluded).1
      = (calculate_miles_in_period fi s mid daily_mpv excluded).1
        + (calculate_miles_in_period fi (mid + 1) e daily_mpv excluded).1 :=
  calculate_miles_split fi daily_mpv excluded h1 h2

theorem claim_C4_witness :
    (0:Nat) ≤ 3 ∧ (3:Nat) ≤ 7 ∧
    (calculate_miles_in_period ⟨[⟨0, 10⟩, ⟨30, 20⟩]⟩ 0 7 100 (fun d => decide (d = 2))).1
      = (calculate_miles_in_period ⟨[⟨0, 10⟩, ⟨30, 20⟩]⟩ 0 3 100 (fun d => decide (d = 2))).1
        + (calculate_miles_in_period ⟨[⟨0, 10⟩, ⟨30, 20⟩]⟩ 4 7 100 (fun d => decide (d = 2))).1 :=
  ⟨by decide, by decide,
    claim_C4_mileage_additivity ⟨[⟨0, 10⟩, ⟨30, 20⟩]⟩ 100 (fun d => decide (d = 2)) 0 3 7
      (by decide) (by decide)⟩

/-- C5: with non-negative fleet counts and non-negative daily mileage, the
record sequence has non-decreasing `cumulative_miles`, each cumulative
incident count is exactly one more than the preceding one, every
cumulative count is positive, and `cumulative_mpi` is exactly the quotient
`cumulative_miles / cumulative_incidents` (so it is only ever formed with a
positive denominator). -/
theorem claim_C5_cumulative_invariants (fi : FleetInterpolator) (daily_mpv : Int)
    (excluded : Nat → Bool) (service_start : Nat) (incidents : List Nat)
    (hd : 0 ≤ daily_mpv) (hc : ∀ s ∈ fi.snapshots, 0 ≤ s.count) :
    List.Chain' (fun r r' => r.cumulative_miles ≤ r'.cumulative_miles ∧
        r.cumulative_incidents + 1 = r'.cumulative_incidents)
      (calculate_mpi_between_incidents fi daily_mpv excluded service_start incidents)
    ∧ ∀ r ∈ calculate_mpi_between_incidents fi daily_mpv excluded service_start incidents,
        0 < r.cumulative_incidents
        ∧ r.cumulative_mpi = (r.cumulative_miles : Rat) / (r.cumulative_incidents : Rat) := by
  obtain ⟨h1, -, h3⟩ := mpiLoop_invariant fi daily_mpv excluded service_start hd hc
    (incidents.insertionSort (fun a b => a ≤ b)) service_start 0 0 0
  unfold calculate_mpi_between_incidents
  exact ⟨h1, fun r hr => ⟨by have := (h3 r hr).1; omega, (h3 r hr).2⟩⟩

theorem claim_C5_witness :
    (0 : Int) ≤ 100 ∧ (∀ s ∈ (⟨[⟨0, 10⟩]⟩ : FleetInterpolator).snapshots, 0 ≤ s.count) ∧
    (List.Chain' (fun r r' => r.cumulative_miles ≤ r'.cumulative_miles ∧
        r.cumulative_incidents + 1 = r'.cumulative_incidents)
      (calculate_mpi_between_incidents ⟨[⟨0, 10⟩]⟩ 100 (fun _ => false) 0 [5, 5])
    ∧ ∀ r ∈ calculate_mpi_between_incidents ⟨[⟨0, 10⟩]⟩ 100 (fun _ => false) 0 [5, 5],
        0 < r.cumulative_incidents
        ∧ r.cumulative_mpi = (r.cumulative_miles : Rat) / (r.cumulative_incidents : Rat)) :=
  ⟨by decide, by decide,
    claim_C5_cumulative_invariants ⟨[⟨0, 10⟩]⟩ 100 (fun _ => false) 0 [5, 5]
      (by decide) (by decide)⟩

/-- C10: in every emitted record `mpi_since_previous` is numerically
identical to `miles_since_previous`, and the MPI input of the trend analyzer
series (built from `mpi_since_previous`) is therefore exactly the
per-interval miles series. -/
theorem claim_C10_mpi_is_miles (fi : FleetInterpolator) (daily_mpv : Int)
    (excluded : Nat → Bool) (service_start : Nat) (incidents : List Nat) :
    (calculate_mpi_between_incidents fi daily_mpv excluded service_start incidents).map
        (fun r => r.mpi_since_previous)
      = (calculate_mpi_between_incidents fi daily_mpv excluded service_start incidents).map
        (fun r => r.miles_since_previous)
    ∧ analyzer_mpi_values
        (calculate_mpi_between_incidents fi daily_mpv excluded service_start incidents)
      = (calculate_mpi_between_incidents fi daily_mpv excluded service_start incidents).map
        (fun r => r.miles_since_previous) := by
  unfold calculate_mpi_between_incidents analyzer_mpi_values
  have h := mpiLoop_mpi_eq_miles fi daily_mpv excluded service_start
    (incidents.insertionSort (fun a b => a ≤ b)) service_start 0 0 0
  exact ⟨h, h⟩

/-- C7: `exponential_trend` never propagates a failure to its caller as an
exception: with fewer than 3 data points it returns the explicit
insufficient-data result dict, and when the optimizer raises (modelled by
the `Except.error` oracle) it returns the explicit fit-failed result dict
carrying the exception text. -/
theorem claim_C7_exponential_no_raise (y : List Rat)
    (opt : Except String (Rat × Rat × List Rat)) (e : String) :
    (y.length < 3 → exponential_trend true true y opt
        = .failure "Insufficient data or scipy not available")
    ∧ (3 ≤ y.length → exponential_trend true true y (Except.error e)
        = .failure ("Exponential fit failed: " ++ e)) := by
  constructor
  · intro h
    simp [exponential_trend, h]
  · intro h
    simp [exponential_trend, Nat.not_lt.mpr h]

theorem claim_C7_witness :
    (([1, 2] : List Rat).length < 3
      ∧ exponential_trend true true [1, 2] (Except.error "boom")
          = .failure "Insufficient data or scipy not available")
    ∧ (3 ≤ ([1, 2, 3] : List Rat).length
      ∧ exponential_trend true true [1, 2, 3] (Except.error "boom")
          = .failure ("Exponential fit failed: " ++ "boom")) :=
  ⟨⟨by decide, (claim_C7_exponential_no_raise [1, 2] (Except.error "boom") "boom").1 (by decide)⟩,
    ⟨by decide, (claim_C7_exponential_no_raise [1, 2, 3] (Except.error "boom") "boom").2 (by decide)⟩⟩

/-- C8 counterexample: a successful exponential fit whose parameters
respect the curve_fit bounds (`a = 100 >= 0`, `b = 0` inside `[-0.1, 0.1]`,
predictions `100 * exp (0 * t) = 100`) yields
`r_squared = 1 - 24900/600 = -81/2 < 0` on the data `[0, 0, 30]`: the
reported value is not in the closed interval `[0, 1]`. -/
theorem claim_C8_counterexample :
    exponential_trend true true [0, 0, 30] (Except.ok (100, 0, [100, 100, 100]))
      = .success 100 0 (-81/2)
    ∧ ¬ (0 ≤ (-81/2 : Rat))
    ∧ (0 ≤ (100 : Rat)) ∧ (-(1/10) ≤ (0 : Rat)) ∧ ((0 : Rat) ≤ 1/10) := by
  refine ⟨by decide, by decide, by decide, by decide, by decide⟩

/-- C8 amended: for every successful exponential fit the reported
`r_squared` (computed as `1 - ss_res/ss_tot`, with `0` substituted when the
total sum of squares is not positive) is at most 1; the claimed lower bound
0 does not hold in general. -/
theorem claim_C8_amended (y : List Rat) (opt : Except String (Rat × Rat × List Rat))
    (a b r : Rat) (h : exponential_trend true true y opt = .success a b r) : r ≤ 1 := by
  unfold exponential_trend at h
  by_cases hlen : y.length < 3
  · simp [hlen] at h
  · simp only [hlen] at h
    cases opt with
    | error e => simp at h
    | ok p =>
      obtain ⟨a', b', yPred⟩ := p
      rw [if_neg (by simp [hlen])] at h
      rw [FitResult.success.injEq] at h
      obtain ⟨-, -, hr⟩ := h
      rw [← hr]
      exact rSquared_le_one y yPred

theorem claim_C8_amended_witness :
    exponential_trend true true [1, 2, 3] (Except.ok (1, 0, [1, 1, 1]))
      = .success 1 0 (-3/2)
    ∧ (-3/2 : Rat) ≤ 1 :=
  ⟨by decide,
    claim_C8_amended [1, 2, 3] (Except.ok (1, 0, [1, 1, 1])) 1 0 (-3/2) (by decide)⟩

/-- C2 counterexample: on a 2-point series the spec `SelectBest` (which
runs both a linear candidate, succeeding with two points, and an
exponential candidate, failing below three points, and returns the single
successful fit) produces a successful linear fit, while the code function
`get_best_fit` — which only ever fits the exponential model — returns the
"No models could be fitted" error dict.  The MPI values `[1, 2]` at
days-since-first-incident `[0, 1]` give the points `[(0,1), (1,2)]`. -/
theorem claim_C2_counterexample :
    get_best_fit true true [1, 2] (Except.error "e") = .failure "No models could be fitted"
    ∧ selectBestSpec [(0, 1), (1, 2)] none = .fitted "linear" 1
    ∧ selectBestSpec [(0, 1), (1, 2)] none ≠ .noFit := by
  refine ⟨by decide, by decide, by decide⟩

/-- C2 amended: `get_best_fit` considers only an exponential candidate: it
never returns a linear model; it returns the exponential fit exactly when
`exponential_trend` succeeded, and the explicit "No models could be fitted"
error otherwise. -/
theorem claim_C2_amended (hn hs : Bool) (y : List Rat)
    (opt : Except String (Rat × Rat × List Rat)) :
    (∀ f, get_best_fit hn hs y opt ≠ .best "linear" f)
    ∧ ((∃ a b r, exponential_trend hn hs y opt = .success a b r
          ∧ get_best_fit hn hs y opt = .best "exponential" (.success a b r))
        ∨ ((∀ a b r, exponential_trend hn hs y opt ≠ .success a b r)
          ∧ get_best_fit hn hs y opt = .failure "No models could be fitted")) := by
  cases hexp : exponential_trend hn hs y opt with
  | success a b r =>
    refine ⟨?_, Or.inl ⟨a, b, r, rfl, ?_⟩⟩
    · intro f h
      rw [get_best_fit, hexp] at h
      rw [BestFitResult.best.injEq] at h
      exact absurd h.1 (by decide)
    · rw [get_best_fit, hexp]
  | failure m =>
    refine ⟨?_, Or.inr ⟨?_, ?_⟩⟩
    · intro f h
      rw [get_best_fit, hexp] at h
      exact BestFitResult.noConfusion h
    · intro a b r h
      exact FitResult.noConfusion h
    · rw [get_best_fit, hexp]

theorem claim_C2_amended_witness :
    get_best_fit true true [1, 2] (Except.error "e") ≠ .best "linear" (.success 0 0 0) :=
  (claim_C2_amended true true [1, 2] (Except.error "e")).1 (.success 0 0 0)

/-- C3: for a date strictly between two adjacent snapshots of the timeline
(everything before the pair dated at or before `b`, everything after dated
at or after `a`), `get_fleet_size` equals the linear-interpolation formula
`b.count + (a.count - b.count) * (date - b.date)/(a.date - b.date)`
truncated toward zero; consequently it lies between the two bracketing
counts, and it is monotone (resp. antitone) in the date over the bracket
when the bracketing counts are non-decreasing (resp. non-increasing). -/
theorem claim_C3_interpolation (fi : FleetInterpolator) (l1 l2 : List Snapshot)
    (b a : Snapshot) (t : Nat)
    (hsnap : fi.snapshots = l1 ++ b :: a :: l2)
    (hl1 : ∀ s ∈ l1, s.date ≤ b.date)
    (hl2 : ∀ s ∈ l2, a.date ≤ s.date)
    (hbt : b.date < t) (hta : t < a.date) :
    get_fleet_size fi t
      = truncQ ((b.count : Rat) + ((a.count : Rat) - (b.count : Rat)) *
          (((t : Rat) - (b.date : Rat)) / ((a.date : Rat) - (b.date : Rat))))
    ∧ min b.count a.count ≤ get_fleet_size fi t
    ∧ get_fleet_size fi t ≤ max b.count a.count
    ∧ (∀ t' : Nat, t ≤ t' → t' < a.date →
        (b.count ≤ a.count → get_fleet_size fi t ≤ get_fleet_size fi t')
        ∧ (a.count ≤ b.count → get_fleet_size fi t' ≤ get_fleet_size fi t)) := by
  have hch : ∀ u : Nat, b.date < u → u < a.date →
      get_fleet_size fi u
        = truncQ ((b.count : Rat) + ((a.count : Rat) - (b.count : Rat)) *
            (((u : Rat) - (b.date : Rat)) / ((a.date : Rat) - (b.date : Rat)))) :=
    fun u h1 h2 => get_fleet_size_adjacent hsnap hl1 hl2 h1 h2
  have hden : (0 : Rat) < (a.date : Rat) - (b.date : Rat) := by
    have : (b.date : Rat) < (a.date : Rat) := by exact_mod_cast lt_trans hbt hta
    linarith
  have hfrac0 : ∀ u : Nat, b.date < u →
      (0 : Rat) ≤ ((u : Rat) - (b.date : Rat)) / ((a.date : Rat) - (b.date : Rat)) := by
    intro u hu
    apply div_nonneg _ (le_of_lt hden)
    have : (b.date : Rat) ≤ (u : Rat) := by exact_mod_cast le_of_lt hu
    linarith
  have hfrac1 : ∀ u : Nat, u < a.date →
      ((u : Rat) - (b.date : Rat)) / ((a.date : Rat) - (b.date : Rat)) ≤ 1 := by
    intro u hu
    rw [div_le_one hden]
    have : (u : Rat) ≤ (a.date : Rat) := by exact_mod_cast le_of_lt hu
    linarith
  have hmono : ∀ u v : Nat, u ≤ v →
      ((u : Rat) - (b.date : Rat)) / ((a.date : Rat) - (b.date : Rat))
        ≤ ((v : Rat) - (b.date : Rat)) / ((a.date : Rat) - (b.date : Rat)) := by
    intro u v huv
    have : (u : Rat) ≤ (v : Rat) := by exact_mod_cast huv
    gcongr
  refine ⟨hch t hbt hta, ?_, ?_, ?_⟩
  · rw [hch t hbt hta]
    exact (interp_between b.count a.count (hfrac0 t hbt) (hfrac1 t hta)).1
  · rw [hch t hbt hta]
    exact (interp_between b.count a.count (hfrac0 t hbt) (hfrac1 t hta)).2
  · intro t' ht ht'a
    have hbt' : b.date < t' := by omega
    constructor
    · intro hba
      rw [hch t hbt hta, hch t' hbt' ht'a]
      exact interp_mono b.count a.count hba (hmono t t' ht)
    · intro hab
      rw [hch t hbt hta, hch t' hbt' ht'a]
      exact interp_anti b.count a.count hab (hmono t t' ht)

theorem claim_C3_witness :
    ((⟨0, 10⟩ : Snapshot).date < 15 ∧ 15 < (⟨30, 20⟩ : Snapshot).date)
    ∧ get_fleet_size ⟨[⟨0, 10⟩, ⟨30, 20⟩]⟩ 15
        = truncQ (((10 : Int) : Rat) + (((20 : Int) : Rat) - ((10 : Int) : Rat)) *
            (((15 : Nat) : Rat) - ((0 : Nat) : Rat)) / (((30 : Nat) : Rat) - ((0 : Nat) : Rat)))
    ∧ min (10 : Int) 20 ≤ get_fleet_size ⟨[⟨0, 10⟩, ⟨30, 20⟩]⟩ 15
    ∧ get_fleet_size ⟨[⟨0, 10⟩, ⟨30, 20⟩]⟩ 15 ≤ max (10 : Int) 20 := by
  have h := claim_C3_interpolation ⟨[⟨0, 10⟩, ⟨30, 20⟩]⟩ [] [] ⟨0, 10⟩ ⟨30, 20⟩ 15
    rfl (by decide) (by decide) (by decide) (by decide)
  refine ⟨⟨by decide, by decide⟩, ?_, h.2.1, h.2.2.1⟩
  rw [h.1]
  congr 1

/-- C6 counterexample: with `service_start = 5` and incidents on days 0 and
10, the day-0 incident is dropped, yet the single emitted record carries
`incident_number = 2`, not 1: the counter is incremented for dropped
pre-service incidents too, so the surviving records are not numbered
consecutively from 1. -/
theorem claim_C6_counterexample :
    (calculate_mpi_between_incidents ⟨[⟨0, 10⟩]⟩ 100 (fun _ => false) 5 [0, 10]).map
        (fun r => (r.incident_number, r.incident_date)) = [(2, 10)]
    ∧ (calculate_mpi_between_incidents ⟨[⟨0, 10⟩]⟩ 100 (fun _ => false) 5 [0, 10]).map
        (fun r => r.incident_number) ≠ [1] := by
  refine ⟨by decide, by decide⟩

/-- C6 amended: after incidents dated before `service_start` are dropped,
the record sequence has one record per remaining incident in chronological
(sorted) order, and the k-th record carries incident index `D + k`, where
`D` is the number of dropped pre-service incidents (the index counter is
incremented for dropped incidents as well, so numbering starts at `D + 1`
rather than 1). -/
theorem claim_C6_amended (fi : FleetInterpolator) (daily_mpv : Int) (excluded : Nat → Bool)
    (service_start : Nat) (incidents : List Nat) :
    (calculate_mpi_between_incidents fi daily_mpv excluded service_start incidents).map
        (fun r => r.incident_date)
      = (incidents.insertionSort (fun a b => a ≤ b)).filter
          (fun d => decide (service_start ≤ d))
    ∧ (calculate_mpi_between_incidents fi daily_mpv excluded service_start incidents).map
        (fun r => r.incident_number)
      = List.range'
          (((incidents.insertionSort (fun a b => a ≤ b)).filter
              (fun d => decide (d < service_start))).length + 1)
          (((incidents.insertionSort (fun a b => a ≤ b)).filter
              (fun d => decide (service_start ≤ d))).length) := by
  have hs : (incidents.insertionSort (fun a b => a ≤ b)).Sorted (· ≤ ·) :=
    List.sorted_insertionSort _ incidents
  have hdec := (List.takeWhile_append_dropWhile
    (fun x => decide (x < service_start)) (incidents.insertionSort (fun a b => a ≤ b))).symm
  have htk : ∀ d ∈ (incidents.insertionSort (fun a b => a ≤ b)).takeWhile
      (fun x => decide (x < service_start)), d < service_start :=
    fun d hd => by simpa using List.mem_takeWhile_imp hd
  have hdr := sorted_dropWhile_not_lt service_start
    (incidents.insertionSort (fun a b => a ≤ b)) hs
  have hrun : mpiLoop fi daily_mpv excluded service_start
        (incidents.insertionSort (fun a b => a ≤ b)) service_start 0 0 0
      = mpiLoop fi daily_mpv excluded service_start
          ((incidents.insertionSort (fun a b => a ≤ b)).dropWhile
            (fun x => decide (x < service_start)))
          service_start
          (0 + ((incidents.insertionSort (fun a b => a ≤ b)).takeWhile
            (fun x => decide (x < service_start))).length) 0 0 := by
    conv_lhs => rw [hdec]
    exact mpiLoop_skip_front fi daily_mpv excluded service_start _ _ _ _ _ _ htk
  obtain ⟨e1, e2, -⟩ := mpiLoop_all_emit fi daily_mpv excluded service_start
    ((incidents.insertionSort (fun a b => a ≤ b)).dropWhile
      (fun x => decide (x < service_start)))
    service_start
    (0 + ((incidents.insertionSort (fun a b => a ≤ b)).takeWhile
      (fun x => decide (x < service_start))).length) 0 0 hdr
  unfold calculate_mpi_between_incidents
  constructor
  · rw [hrun, e1, ← sorted_filter_ge_eq_dropWhile service_start _ hs]
  · rw [hrun, e2]
    rw [sorted_filter_lt_eq_takeWhile service_start _ hs,
      ← sorted_filter_ge_eq_dropWhile service_start _ hs]
    congr 1
    omega

/-- C1 counterexample: two incidents on the same day 5 with a constant
fleet of 10 and 100 miles/vehicle/day. The second record has
`days_since_previous = 0` as claimed, but `miles_since_previous = 1000`
(one full inclusive day of fleet miles, since the day loop runs from
`prev_date = 5` to `incident_date = 5` inclusive) and
`mpi_since_previous = 1000`, not 0. -/
theorem claim_C1_counterexample :
    ((calculate_mpi_between_incidents ⟨[⟨0, 10⟩]⟩ 100 (fun _ => false) 0 [5, 5])[1]?).map
        (fun r => (r.days_since_previous, r.miles_since_previous, r.mpi_since_previous))
      = some (0, 1000, 1000)
    ∧ ((calculate_mpi_between_incidents ⟨[⟨0, 10⟩]⟩ 100 (fun _ => false) 0 [5, 5])[1]?).map
        (fun r => r.miles_since_previous) ≠ some 0 := by
  refine ⟨by decide, by decide⟩

/-- C1 amended: when two consecutive qualifying incidents in the sorted
list share one date `d`, the record emitted for the second has
`days_since_previous = 0`, but its `miles_since_previous` and
`mpi_since_previous` both equal the miles of that single inclusive day
(`fleet_size(d) * daily_miles`, or 0 when `d` is an excluded day), because
the day loop runs from `prev_date = d` to `incident_date = d` inclusive. -/
theorem claim_C1_amended (fi : FleetInterpolator) (daily_mpv : Int) (excluded : Nat → Bool)
    (service_start : Nat) (incidents : List Nat) (l1 l2 : List Nat) (d : Nat)
    (hsort : incidents.insertionSort (fun a b => a ≤ b) = l1 ++ d :: d :: l2)
    (hq : ¬ d < service_start) :
    calculate_mpi_between_incidents fi daily_mpv excluded service_start incidents
      = mpiLoop fi daily_mpv excluded service_start l1 service_start 0 0 0
        ++ mpiLoop fi daily_mpv excluded service_start (d :: d :: l2)
            (runState fi daily_mpv excluded service_start l1 (service_start, 0, 0, 0)).1
            (runState fi daily_mpv excluded service_start l1 (service_start, 0, 0, 0)).2.1
            (runState fi daily_mpv excluded service_start l1 (service_start, 0, 0, 0)).2.2.1
            (runState fi daily_mpv excluded service_start l1 (service_start, 0, 0, 0)).2.2.2
    ∧ ((mpiLoop fi daily_mpv excluded service_start (d :: d :: l2)
            (runState fi daily_mpv excluded service_start l1 (service_start, 0, 0, 0)).1
            (runState fi daily_mpv excluded service_start l1 (service_start, 0, 0, 0)).2.1
            (runState fi daily_mpv excluded service_start l1 (service_start, 0, 0, 0)).2.2.1
            (runState fi daily_mpv excluded service_start l1 (service_start, 0, 0, 0)).2.2.2)[1]?).map
        (fun r => (r.days_since_previous, r.miles_since_previous, r.mpi_since_previous))
      = some (0, dayMiles fi daily_mpv excluded d, dayMiles fi daily_mpv excluded d) := by
  constructor
  · unfold calculate_mpi_between_incidents
    rw [hsort]
    exact mpiLoop_append fi daily_mpv excluded service_start l1 (d :: d :: l2)
      service_start 0 0 0
  · generalize runState fi daily_mpv excluded service_start l1 (service_start, 0, 0, 0) = P
    obtain ⟨prev, num, cm, ci⟩ := P
    rw [mpiLoop_cons_emit fi daily_mpv excluded service_start _ _ _ _ _ hq,
      mpiLoop_cons_emit fi daily_mpv excluded service_start _ _ _ _ _ hq]
    rw [List.getElem?_cons_succ, List.getElem?_cons_zero]
    rw [Option.map_some']
    rw [mkIntervalRecord_days, mkIntervalRecord_miles, mkIntervalRecord_mpi,
      calculate_miles_single, sub_self]

theorem claim_C1_amended_witness :
    ([5, 5].insertionSort (fun a b => a ≤ b) = [] ++ 5 :: 5 :: [])
    ∧ (¬ (5 : Nat) < 0)
    ∧ ((mpiLoop ⟨[⟨0, 10⟩]⟩ 100 (fun _ => false) 0 (5 :: 5 :: []) 0 0 0 0)[1]?).map
        (fun r => (r.days_since_previous, r.miles_since_previous, r.mpi_since_previous))
      = some (0, dayMiles ⟨[⟨0, 10⟩]⟩ 100 (fun _ => false) 5,
              dayMiles ⟨[⟨0, 10⟩]⟩ 100 (fun _ => false) 5) :=
  ⟨by decide, by decide,
    (claim_C1_amended ⟨[⟨0, 10⟩]⟩ 100 (fun _ => false) 0 [5, 5] [] [] 5
      (by decide) (by decide)).2⟩

/-- C9: for two consecutive qualifying incidents with distinct dates
`d1 < d2` in the sorted list, the mileage range of the first record runs
from the previous date to `d1` inclusive, and the mileage range of the
second record runs from `d1` inclusive to `d2` inclusive: the miles of day
`d1` appear in both intervals, so the second `cumulative_miles` equals the
first one plus the miles of day `d1` plus the miles of `[d1+1, d2]` — `d1`
is counted twice in the cumulative total. -/
theorem claim_C9_endpoint_double_count (fi : FleetInterpolator) (daily_mpv : Int)
    (excluded : Nat → Bool) (service_start : Nat) (incidents : List Nat)
    (l1 l2 : List Nat) (d1 d2 : Nat)
    (hsort : incidents.insertionSort (fun a b => a ≤ b) = l1 ++ d1 :: d2 :: l2)
    (hq1 : ¬ d1 < service_start) (hq2 : ¬ d2 < service_start) (h12 : d1 < d2)
    (hprev : (runState fi daily_mpv excluded service_start l1 (service_start, 0, 0, 0)).1 ≤ d1) :
    calculate_mpi_between_incidents fi daily_mpv excluded service_start incidents
      = mpiLoop fi daily_mpv excluded service_start l1 service_start 0 0 0
        ++ mpiLoop fi daily_mpv excluded service_start (d1 :: d2 :: l2)
            (runState fi daily_mpv excluded service_start l1 (service_start, 0, 0, 0)).1
            (runState fi daily_mpv excluded service_start l1 (service_start, 0, 0, 0)).2.1
            (runState fi daily_mpv excluded service_start l1 (service_start, 0, 0, 0)).2.2.1
            (runState fi daily_mpv excluded service_start l1 (service_start, 0, 0, 0)).2.2.2
    ∧ ((mpiLoop fi daily_mpv excluded service_start (d1 :: d2 :: l2)
            (runState fi daily_mpv excluded service_start l1 (service_start, 0, 0, 0)).1
            (runState fi daily_mpv excluded service_start l1 (service_start, 0, 0, 0)).2.1
            (runState fi daily_mpv excluded service_start l1 (service_start, 0, 0, 0)).2.2.1
            (runState fi daily_mpv excluded service_start l1 (service_start, 0, 0, 0)).2.2.2)[0]?).map
        (fun r => r.miles_since_previous)
      = some ((calculate_miles_in_period fi
          (runState fi daily_mpv excluded service_start l1 (service_start, 0, 0, 0)).1
          d1 daily_mpv excluded).1)
    ∧ (calculate_miles_in_period fi
          (runState fi daily_mpv excluded service_start l1 (service_start, 0, 0, 0)).1
          d1 daily_mpv excluded).1
        = (∑ d ∈ Finset.Ico
              (runState fi daily_mpv excluded service_start l1 (service_start, 0, 0, 0)).1 d1,
            dayMiles fi daily_mpv excluded d) + dayMiles fi daily_mpv excluded d1
    ∧ ((mpiLoop fi daily_mpv excluded service_start (d1 :: d2 :: l2)
            (runState fi daily_mpv excluded service_start l1 (service_start, 0, 0, 0)).1
            (runState fi daily_mpv excluded service_start l1 (service_start, 0, 0, 0)).2.1
            (runState fi daily_mpv excluded service_start l1 (service_start, 0, 0, 0)).2.2.1
            (runState fi daily_mpv excluded service_start l1 (service_start, 0, 0, 0)).2.2.2)[1]?).map
        (fun r => r.miles_since_previous)
      = some ((calculate_miles_in_period fi d1 d2 daily_mpv excluded).1)
    ∧ (calculate_miles_in_period fi d1 d2 daily_mpv excluded).1
        = dayMiles fi daily_mpv excluded d1
          + (calculate_miles_in_period fi (d1 + 1) d2 daily_mpv excluded).1
    ∧ ((mpiLoop fi daily_mpv excluded service_start (d1 :: d2 :: l2)
            (runState fi daily_mpv excluded service_start l1 (service_start, 0, 0, 0)).1
            (runState fi daily_mpv excluded service_start l1 (service_start, 0, 0, 0)).2.1
            (runState fi daily_mpv excluded service_start l1 (service_start, 0, 0, 0)).2.2.1
            (runState fi daily_mpv excluded service_start l1 (service_start, 0, 0, 0)).2.2.2)[1]?).map
        (fun r => r.cumulative_miles)
      = ((mpiLoop fi daily_mpv excluded service_start (d1 :: d2 :: l2)
            (runState fi daily_mpv excluded service_start l1 (service_start, 0, 0, 0)).1
            (runState fi daily_mpv excluded service_start l1 (service_start, 0, 0, 0)).2.1
            (runState fi daily_mpv excluded service_start l1 (service_start, 0, 0, 0)).2.2.1
            (runState fi daily_mpv excluded service_start l1 (service_start, 0, 0, 0)).2.2.2)[0]?).map
        (fun r => r.cumulative_miles + dayMiles fi daily_mpv excluded d1
          + (calculate_miles_in_period fi (d1 + 1) d2 daily_mpv excluded).1) := by
  have hsplit : (calculate_miles_in_period fi d1 d2 daily_mpv excluded).1
      = dayMiles fi daily_mpv excluded d1
        + (calculate_miles_in_period fi (d1 + 1) d2 daily_mpv excluded).1 := by
    rw [calculate_miles_split fi daily_mpv excluded (le_refl d1) (le_of_lt h12),
      calculate_miles_single]
  refine ⟨?_, ?_, ?_, ?_, hsplit, ?_⟩
  · unfold calculate_mpi_between_incidents
    rw [hsort]
    exact mpiLoop_append fi daily_mpv excluded service_start l1 (d1 :: d2 :: l2)
      service_start 0 0 0
  · rw [mpiLoop_cons_emit fi daily_mpv excluded service_start _ _ _ _ _ hq1,
      List.getElem?_cons_zero, Option.map_some', mkIntervalRecord_miles]
  · exact calculate_miles_last fi daily_mpv excluded hprev
  · rw [mpiLoop_cons_emit fi daily_mpv excluded service_start _ _ _ _ _ hq1,
      mpiLoop_cons_emit fi daily_mpv excluded service_start _ _ _ _ _ hq2,
      List.getElem?_cons_succ, List.getElem?_cons_zero, Option.map_some',
      mkIntervalRecord_miles]
  · rw [mpiLoop_cons_emit fi daily_mpv excluded service_start _ _ _ _ _ hq1,
      mpiLoop_cons_emit fi daily_mpv excluded service_start _ _ _ _ _ hq2,
      List.getElem?_cons_succ, List.getElem?_cons_zero, List.getElem?_cons_zero,
      Option.map_some', Option.map_some', mkIntervalRecord_cumMiles,
      mkIntervalRecord_cumMiles, hsplit]
    congr 1
    ring

theorem claim_C9_witness :
    ([3, 5].insertionSort (fun a b => a ≤ b) = [] ++ 3 :: 5 :: [])
    ∧ (¬ (3 : Nat) < 0) ∧ (¬ (5 : Nat) < 0) ∧ ((3 : Nat) < 5)
    ∧ (runState ⟨[⟨0, 10⟩]⟩ 100 (fun _ => false) 0 [] (0, 0, 0, 0)).1 ≤ 3
    ∧ (calculate_miles_in_period ⟨[⟨0, 10⟩]⟩ 3 5 100 (fun _ => false)).1
        = dayMiles ⟨[⟨0, 10⟩]⟩ 100 (fun _ => false) 3
          + (calculate_miles_in_period ⟨[⟨0, 10⟩]⟩ 4 5 100 (fun _ => false)).1 :=
  ⟨by decide, by decide, by decide, by decide, by decide,
    (claim_C9_endpoint_double_count ⟨[⟨0, 10⟩]⟩ 100 (fun _ => false) 0 [3, 5] [] [] 3 5
      (by decide) (by decide) (by decide) (by decide) (by decide)).2.2.2.2.1⟩

end MPITracker
